import Mathlib

/-!
# Verification of `src/notebooks/boundaries.py`

Shallow embedding of the boundary-fetching module. The module has three
functions, `get_boundaries`, `get_admin1_boundaries` and
`get_admin2_boundaries`, each of which builds a query URL, performs one
HTTP GET, parses the JSON body, assembles polygon geometry from ESRI
"rings", and shapes the result into a pandas DataFrame.

Network and library effects are made explicit:
* the remote interaction's outcome (timeout / transport error / parsed
  JSON body) is a parameter of each function (`Outcome`);
* printing is modelled by returning the list of printed lines;
* Python exceptions inside the `try` block are modelled with `Except`,
  and the `except` clauses turn them into `none` plus a diagnostic;
* shapely geometry is modelled by point sets in `ℝ × ℝ`:
  `shapely.geometry.Polygon(ring)` is the region enclosed by the ring
  under the standard even–odd (ray-crossing) rule, and
  `shapely.ops.unary_union` is set union;
* the pandas operations actually used (`DataFrame.from_dict`, `.T`,
  `[:-1]`, `.loc` assignment, `DataFrame(list-of-dicts)`) are modelled
  at the granularity of row labels, column labels and a cell function.
-/

/-! ## Geometry: rings, `shapely.geometry.Polygon`, `shapely.ops.unary_union`

A ring is a list of coordinate pairs, as found in the ESRI JSON
`geometry.rings` entry (rational coordinates; the service serialises
decimal numbers). `Polygon(ring)` is the set of points of the plane
enclosed by the ring, membership decided by the parity of the number of
times the horizontal ray to the right of the point crosses an edge of
the ring (even–odd rule, half-open convention on edge endpoints).
`unary_union` of a list of geometries is the union of their point sets. -/

/-- A coordinate pair as it appears inside a ring. -/
abbrev Pt : Type := ℚ × ℚ

/-- One ring of an ESRI polygon geometry: an ordered list of coordinate
pairs (the service returns closed rings whose last point repeats the
first; nothing here depends on that). -/
abbrev ERing : Type := List Pt

/-- The edges of the closed polygonal line through the points of `r`:
each point paired with its cyclic successor. -/
def edges (r : ERing) : List (Pt × Pt) :=
  r.zip (r.drop 1 ++ r.take 1)

/-- The horizontal ray going right from `p` crosses the open edge `e`
(half-open in `y`, so a vertex is counted for exactly one of the two
edges meeting it; the `x` bound is the abscissa of the edge at height
`p.2`). This is the standard even–odd ray-casting test. -/
def crosses (p : ℝ × ℝ) (e : Pt × Pt) : Prop :=
  (((e.1.2 : ℝ) ≤ p.2 ∧ p.2 < (e.2.2 : ℝ)) ∨ ((e.2.2 : ℝ) ≤ p.2 ∧ p.2 < (e.1.2 : ℝ))) ∧
    p.1 < (e.1.1 : ℝ) + (p.2 - (e.1.2 : ℝ)) * ((e.2.1 : ℝ) - (e.1.1 : ℝ)) / ((e.2.2 : ℝ) - (e.1.2 : ℝ))

/-- Parity of the number of edges of `l` crossed by the rightward ray
from `p`: `False` for an even count, `True` for an odd count. -/
def rayParity (p : ℝ × ℝ) : List (Pt × Pt) → Prop
  | [] => False
  | e :: es => Xor' (crosses p e) (rayParity p es)

/-- `shapely.geometry.Polygon(ring)` as a point set: the points whose
rightward ray crosses the ring's edges an odd number of times. -/
def ringRegion (r : ERing) : Set (ℝ × ℝ) :=
  {p | rayParity p (edges r)}

/-- `shapely.ops.unary_union` on a list of geometries: the union of the
point sets. -/
def unaryUnion (gs : List (Set (ℝ × ℝ))) : Set (ℝ × ℝ) :=
  gs.foldl (fun acc g => acc ∪ g) ∅

/-- Lines 53–58 of `boundaries.py`: build one `Polygon` per ring of the
feature, then `unary_union` the list. -/
def assembleRings (rings : List ERing) : Set (ℝ × ℝ) :=
  unaryUnion (rings.map ringRegion)

/-- The area of a geometry (`.area` in shapely): planar Lebesgue
measure of its point set. -/
noncomputable def geomArea (s : Set (ℝ × ℝ)) : ENNReal :=
  MeasureTheory.volume s

/-! ### Basic geometry lemmas -/

theorem xorFalseLeft (a : Prop) : Xor' False a ↔ a := by
  rw [xor_false]
  exact Iff.rfl

theorem xorFalseRight (a : Prop) : Xor' a False ↔ a := by
  rw [xor_comm, xor_false]
  exact Iff.rfl

theorem unaryUnion_pair (a b : Set (ℝ × ℝ)) : unaryUnion [a, b] = a ∪ b := by
  simp [unaryUnion]

theorem assembleRings_pair (o h : ERing) :
    assembleRings [o, h] = ringRegion o ∪ ringRegion h := by
  simp [assembleRings, unaryUnion_pair]

/-- The even–odd region of an axis-aligned rectangle ring (listed
counter-clockwise, closed) is the half-open rectangle. -/
theorem ringRegion_rect (x0 y0 x1 y1 : ℚ) (hx : x0 < x1) (hy : y0 < y1) :
    ringRegion [(x0, y0), (x1, y0), (x1, y1), (x0, y1), (x0, y0)] =
      {p : ℝ × ℝ | (x0 : ℝ) ≤ p.1 ∧ p.1 < (x1 : ℝ) ∧ (y0 : ℝ) ≤ p.2 ∧ p.2 < (y1 : ℝ)} := by
  have hx' : (x0 : ℝ) < (x1 : ℝ) := by exact_mod_cast hx
  have hy' : (y0 : ℝ) < (y1 : ℝ) := by exact_mod_cast hy
  ext p
  have hedges : edges [(x0, y0), (x1, y0), (x1, y1), (x0, y1), (x0, y0)] =
      [((x0, y0), (x1, y0)), ((x1, y0), (x1, y1)), ((x1, y1), (x0, y1)),
        ((x0, y1), (x0, y0)), ((x0, y0), (x0, y0))] := rfl
  have c1 : crosses p ((x0, y0), (x1, y0)) ↔ False := by
    simp only [crosses, iff_false]
    rintro ⟨h | h, -⟩ <;> linarith [h.1, h.2]
  have c3 : crosses p ((x1, y1), (x0, y1)) ↔ False := by
    simp only [crosses, iff_false]
    rintro ⟨h | h, -⟩ <;> linarith [h.1, h.2]
  have c5 : crosses p ((x0, y0), (x0, y0)) ↔ False := by
    simp only [crosses, iff_false]
    rintro ⟨h | h, -⟩ <;> linarith [h.1, h.2]
  have c2 : crosses p ((x1, y0), (x1, y1)) ↔
      (((y0 : ℝ) ≤ p.2 ∧ p.2 < (y1 : ℝ)) ∧ p.1 < (x1 : ℝ)) := by
    simp only [crosses]
    have harith : (x1 : ℝ) + (p.2 - (y0 : ℝ)) * ((x1 : ℝ) - (x1 : ℝ)) / ((y1 : ℝ) - (y0 : ℝ))
        = (x1 : ℝ) := by ring
    rw [harith]
    constructor
    · rintro ⟨h | h, hx⟩
      · exact ⟨h, hx⟩
      · exact absurd (lt_of_le_of_lt h.1 h.2) (lt_asymm hy')
    · rintro ⟨h, hx⟩
      exact ⟨Or.inl h, hx⟩
  have c4 : crosses p ((x0, y1), (x0, y0)) ↔
      (((y0 : ℝ) ≤ p.2 ∧ p.2 < (y1 : ℝ)) ∧ p.1 < (x0 : ℝ)) := by
    simp only [crosses]
    have harith : (x0 : ℝ) + (p.2 - (y1 : ℝ)) * ((x0 : ℝ) - (x0 : ℝ)) / ((y0 : ℝ) - (y1 : ℝ))
        = (x0 : ℝ) := by ring
    rw [harith]
    constructor
    · rintro ⟨h | h, hx⟩
      · exact absurd (lt_of_le_of_lt h.1 h.2) (lt_asymm hy')
      · exact ⟨h, hx⟩
    · rintro ⟨h, hx⟩
      exact ⟨Or.inr h, hx⟩
  simp only [ringRegion, Set.mem_setOf_eq, hedges, rayParity]
  rw [c1, c2, c3, c4, c5, xorFalseLeft, xorFalseLeft, xorFalseLeft, xorFalseRight]
  simp only [Xor']
  constructor
  · rintro (⟨⟨hy2, hx2⟩, hn4⟩ | ⟨⟨hy4, hx4⟩, hn2⟩)
    · refine ⟨?_, hx2, hy2.1, hy2.2⟩
      by_contra hlt
      exact hn4 ⟨hy2, by linarith⟩
    · exact absurd ⟨hy4, by linarith⟩ hn2
  · rintro ⟨hx0, hx1, hy0, hy1⟩
    exact Or.inl ⟨⟨⟨hy0, hy1⟩, hx1⟩, fun h => absurd h.2 (not_lt.mpr hx0)⟩

/-! ### A concrete outer ring with a fully enclosed hole ring -/

/-- A closed square ring enclosing `[0,4] × [0,4]`. -/
def outerSq : ERing := [(0, 0), (4, 0), (4, 4), (0, 4), (0, 0)]

/-- A closed square ring enclosing `[1,3] × [1,3]`, fully inside
`outerSq`. -/
def holeSq : ERing := [(1, 1), (3, 1), (3, 3), (1, 3), (1, 1)]

theorem ringRegion_outerSq :
    ringRegion outerSq =
      {p : ℝ × ℝ | (0 : ℝ) ≤ p.1 ∧ p.1 < 4 ∧ (0 : ℝ) ≤ p.2 ∧ p.2 < 4} := by
  have h := ringRegion_rect 0 0 4 4 (by norm_num) (by norm_num)
  simpa using h

theorem ringRegion_holeSq :
    ringRegion holeSq =
      {p : ℝ × ℝ | (1 : ℝ) ≤ p.1 ∧ p.1 < 3 ∧ (1 : ℝ) ≤ p.2 ∧ p.2 < 3} := by
  have h := ringRegion_rect 1 1 3 3 (by norm_num) (by norm_num)
  simpa using h

theorem holeSq_subset_outerSq : ringRegion holeSq ⊆ ringRegion outerSq := by
  rw [ringRegion_holeSq, ringRegion_outerSq]
  rintro p ⟨h1, h2, h3, h4⟩
  exact ⟨by linarith, by linarith, by linarith, by linarith⟩

/-- When one ring's region is contained in the other, the per-ring
union built by lines 53–58 collapses to the outer region. -/
theorem assembleRings_absorb (o h : ERing) (hsub : ringRegion h ⊆ ringRegion o) :
    assembleRings [o, h] = ringRegion o := by
  rw [assembleRings_pair]
  exact Set.union_eq_self_of_subset_right hsub

/-! ## Python values, dictionaries and the slice of pandas used

`PyVal` covers the values stored in the tables: JSON scalars from the
`attributes` mapping, Python `None`, pandas `NaN` fill values, the raw
`rings` list as stored by `DataFrame.from_dict`, and shapely geometry
objects. Dictionaries with string keys are association lists (Python
dicts preserve insertion order and have unique keys). -/

/-- A Python value as it can appear in a cell of one of the result
tables. -/
inductive PyVal : Type
  | str (s : String)
  | num (q : ℚ)
  | boolV (b : Bool)
  | none
  | nan
  | ringsVal (rs : List ERing)
  | geomVal (g : Set (ℝ × ℝ))

/-- A Python dict with string keys, as an insertion-ordered association
list. -/
abbrev PyDict : Type := List (String × PyVal)

/-- `d[k]` on a dict, with `NaN` for a missing key (pandas fills
missing cells with `NaN` when aligning). -/
def dictLookup (d : PyDict) (k : String) : PyVal :=
  match d.find? (fun kv => kv.1 == k) with
  | Option.some kv => kv.2
  | Option.none => PyVal.nan

/-- `d[k] = v` on a dict: overwrite the entry if the key is present
(Python dicts have unique keys), else append it. -/
def dictSet (d : PyDict) (k : String) (v : PyVal) : PyDict :=
  if d.any (fun kv => kv.1 == k) then
    d.map (fun kv => if kv.1 == k then (k, v) else kv)
  else
    d ++ [(k, v)]

/-- Lexicographic comparison of two codepoint lists. -/
def charsLe : List Char → List Char → Bool
  | [], _ => true
  | _ :: _, [] => false
  | a :: as, b :: bs =>
    if a.toNat < b.toNat then true
    else if b.toNat < a.toNat then false
    else charsLe as bs

/-- Lexicographic codepoint order on strings, the order Python (and
hence pandas) sorts string labels by. -/
def strLe (a b : String) : Bool := charsLe a.data b.data

/-- Insert a string into a `strLe`-sorted list of strings. -/
def insertSorted (a : String) : List String → List String
  | [] => [a]
  | b :: t => if strLe a b then a :: b :: t else b :: insertSorted a t

/-- Insertion sort on strings; models the lexicographic sort pandas
applies when taking the union of two unequal indexes. -/
def sortStrings : List String → List String
  | [] => []
  | a :: t => insertSorted a (sortStrings t)

/-- Remove duplicates from a list of strings (keeps the last
occurrence; the result is sorted afterwards, so only the underlying set
matters). -/
def dedupStr : List String → List String
  | [] => []
  | a :: t => if a ∈ t then dedupStr t else a :: dedupStr t

/-- The index pandas gives a `DataFrame` built from several columns:
if all the column indexes are equal that index is kept as-is, otherwise
`Index.union` is applied, which sorts the union of the keys. -/
def unionSorted (ls : List (List String)) : List String :=
  match ls with
  | [] => []
  | l :: rest =>
    if rest.all (fun m => m == l) then l
    else sortStrings (dedupStr (l :: rest).flatten)

/-- Deduplication keeping the first occurrence, with an accumulator of
already-seen keys. -/
def dedupSeen (seen : List String) : List String → List String
  | [] => []
  | a :: t => if a ∈ seen then dedupSeen seen t else a :: dedupSeen (a :: seen) t

/-- The columns pandas gives a `DataFrame` built from a list of row
dicts: the union of the keys in order of first appearance. -/
def unionFirstSeen (ls : List (List String)) : List String :=
  dedupSeen [] ls.flatten

/-- The slice of a pandas `DataFrame` the country fetch manipulates:
row labels, column labels, and a total cell function (`NaN` outside the
populated cells). -/
structure Frame : Type where
  index : List String
  cols : List String
  cell : String → String → PyVal

/-- `pd.DataFrame.from_dict(d)` for a dict of dicts `d` (the default
`orient='columns'`): outer keys become column labels, the row index is
the union of the inner key sets, and a cell holds the inner dict's
value (or `NaN` where a column's dict lacks the row key). -/
def fromDict (d : List (String × PyDict)) : Frame where
  index := unionSorted (d.map (fun kv => kv.2.map Prod.fst))
  cols := d.map Prod.fst
  cell := fun i c =>
    match d.find? (fun kv => kv.1 == c) with
    | Option.some kv => dictLookup kv.2 i
    | Option.none => PyVal.nan

/-- `df.T`: swap rows and columns. -/
def transposeF (f : Frame) : Frame where
  index := f.cols
  cols := f.index
  cell := fun i c => f.cell c i

/-- `df[:-1]`: drop the last row. -/
def dropLastRow (f : Frame) : Frame where
  index := f.index.dropLast
  cols := f.cols
  cell := f.cell

/-- `df.loc[i, c] = v`: set one cell, enlarging the frame with the row
or column label if it is not present (pandas `.loc` enlargement). -/
def locSet (f : Frame) (i c : String) (v : PyVal) : Frame where
  index := if i ∈ f.index then f.index else f.index ++ [i]
  cols := if c ∈ f.cols then f.cols else f.cols ++ [c]
  cell := fun i' c' => if i' = i ∧ c' = c then v else f.cell i' c'

/-! ## The consumed slice of the service's JSON response

`res` is the parsed JSON body. The code only reads `res['features']`
(guarded by a key check), and per feature the `attributes` dict, the
`geometry` dict and its `rings` entry (both accessed unguarded in
`get_boundaries`, and `geometry` unguarded in the admin fetches).
`Option.none` models an absent key. -/

/-- The `geometry` member of a feature: may lack the `rings` key (for
instance a point or polyline geometry). -/
structure FeatureGeom : Type where
  rings : Option (List ERing)

/-- One element of the `features` array. -/
structure Feature : Type where
  attributes : PyDict
  geometry : Option FeatureGeom

/-- The parsed JSON body: `features` is `Option.none` when the object
has no `features` key at all (e.g. a service-level error object
returned with HTTP 200). -/
structure Response : Type where
  features : Option (List Feature)

/-- What the remote interaction produced, as observed inside the `try`
block:
* `timeout`: `requests.get` raised `requests.exceptions.Timeout`;
* `requestError`: the GET or `raise_for_status()` raised some other
  `requests.exceptions.RequestException` (DNS failure, connection
  refused, non-2xx status), carrying the exception's message;
* `badJson`: `result.json()` raised on a malformed body, carrying the
  decoder's message (caught by the generic `except Exception` branch);
* `ok`: a parsed JSON body. -/
inductive Outcome : Type
  | timeout
  | requestError (msg : String)
  | badJson (msg : String)
  | ok (res : Response)

/-! ## The three operations

Each function takes its caller-supplied parameters plus the `Outcome`
of its single HTTP GET, and returns the pair of the Python return value
(`Option` for `DataFrame`-or-`None`) and the list of lines it printed. -/

/-- The query URL built on lines 33–37: fixed service root and layer
path, then the querystring with the caller's values interpolated into
the `where` predicate by an f-string. -/
def country_url (attr val : String) : String :=
  String.join [
    "https://services.arcgis.com/iQ1dY19aHwbSDYIF/ArcGIS/rest/services/",
    "World_Bank_Official_Boundaries_World_Country_Polygons_(Very_High_Definition)/FeatureServer/0/query?",
    "where=" ++ attr ++ "='" ++ val ++ "'&f=pjson&returnGeometry=true&outFields=*&outSR=4326"]

/-- The query URL built on lines 92–96 (admin level 1 layer). -/
def admin1_url (iso_code : String) : String :=
  String.join [
    "https://services.arcgis.com/iQ1dY19aHwbSDYIF/ArcGIS/rest/services/",
    "World_Bank_Global_Administrative_Divisions/FeatureServer/2/query?",
    "where=ISO_A3='" ++ iso_code ++ "'&f=pjson&returnGeometry=true&outFields=*&outSR=4326"]

/-- The query URL built on lines 162–166 (admin level 2 layer). -/
def admin2_url (iso_code : String) : String :=
  String.join [
    "https://services.arcgis.com/iQ1dY19aHwbSDYIF/ArcGIS/rest/services/",
    "World_Bank_Global_Administrative_Divisions/FeatureServer/3/query?",
    "where=ISO_A3='" ++ iso_code ++ "'&f=pjson&returnGeometry=true&outFields=*&outSR=4326"]

/-- The dict-of-dicts shape of one feature as handed to
`pd.DataFrame.from_dict` on line 50: the `attributes` dict, and, when
the `geometry` key is present, the geometry dict (holding its raw
`rings` list when that key is present). -/
def featureDict (f : Feature) : List (String × PyDict) :=
  [("attributes", f.attributes)] ++
    (match f.geometry with
     | Option.some g =>
       [("geometry", match g.rings with
         | Option.some rs => [("rings", PyVal.ringsVal rs)]
         | Option.none => [])]
     | Option.none => [])

/-- Line 54's accesses `res['features'][0]['geometry']['rings']`: a
missing `geometry` or `rings` key raises a `KeyError` (whose printed
form is the quoted key). -/
def getRings (f : Feature) : Except String (List ERing) :=
  match f.geometry with
  | Option.none => Except.error "'geometry'"
  | Option.some g =>
    match g.rings with
    | Option.none => Except.error "'rings'"
    | Option.some rs => Except.ok rs

/-- `get_boundaries(attr, val)` (lines 11–71), given the outcome of its
GET to `country_url attr val`. On the success path it builds
`pd.DataFrame.from_dict(features[0]).T[:-1]`, assembles the union of
the per-ring polygons, stores it with
`df.loc['attributes', 'rings'] = geom`, and returns the frame; every
failure path returns `None` after printing one diagnostic. -/
def get_boundaries (attr val : String) (o : Outcome) : Option Frame × List String :=
  match o with
  | Outcome.timeout =>
    (Option.none, ["Request timed out for " ++ attr ++ "='" ++ val ++ "'"])
  | Outcome.requestError e => (Option.none, ["Request error: " ++ e])
  | Outcome.badJson e => (Option.none, ["Error processing data: " ++ e])
  | Outcome.ok res =>
    match res.features with
    | Option.none =>
      (Option.none, ["No features found for " ++ attr ++ "='" ++ val ++ "'"])
    | Option.some [] =>
      (Option.none, ["No features found for " ++ attr ++ "='" ++ val ++ "'"])
    | Option.some (f :: _) =>
      let df := dropLastRow (transposeF (fromDict (featureDict f)))
      match getRings f with
      | Except.error e => (Option.none, ["Error processing data: " ++ e])
      | Except.ok rs =>
        (Option.some (locSet df "attributes" "rings" (PyVal.geomVal (assembleRings rs))),
          [])

/-- The admin-fetch result table: `pd.DataFrame(rows)` for a list of
row dicts — one row per dict, columns the union of the keys in order of
first appearance. -/
structure RowFrame : Type where
  rows : List PyDict
  cols : List String

/-- `pd.DataFrame(rows)`. -/
def frameOfRows (rows : List PyDict) : RowFrame where
  rows := rows
  cols := unionFirstSeen (rows.map (fun r => r.map Prod.fst))

/-- Lines 116–123 (likewise 186–193) for one feature: `None` when the
geometry dict has no `rings` key, else the union of the per-ring
polygons; accessing `feature['geometry']` raises when the key is
absent. -/
def adminGeom (f : Feature) : Except String PyVal :=
  match f.geometry with
  | Option.none => Except.error "'geometry'"
  | Option.some g =>
    match g.rings with
    | Option.some rs => Except.ok (PyVal.geomVal (assembleRings rs))
    | Option.none => Except.ok PyVal.none

/-- The loop of lines 109–126 (likewise 179–196): for each feature,
take its `attributes` dict, compute the geometry value, store it under
the `geometry` key, and append the row; the first raising feature
aborts the whole loop. -/
def buildRows : List Feature → Except String (List PyDict)
  | [] => Except.ok []
  | f :: fs =>
    match adminGeom f with
    | Except.error e => Except.error e
    | Except.ok g =>
      match buildRows fs with
      | Except.error e => Except.error e
      | Except.ok rest => Except.ok (dictSet f.attributes "geometry" g :: rest)

/-- `get_admin1_boundaries(iso_code)` (lines 74–141), given the outcome
of its GET to `admin1_url iso_code`. -/
def get_admin1_boundaries (iso_code : String) (o : Outcome) :
    Option RowFrame × List String :=
  match o with
  | Outcome.timeout =>
    (Option.none, ["Request timed out for ISO='" ++ iso_code ++ "'"])
  | Outcome.requestError e => (Option.none, ["Request error: " ++ e])
  | Outcome.badJson e => (Option.none, ["Error processing data: " ++ e])
  | Outcome.ok res =>
    match res.features with
    | Option.none =>
      (Option.none, ["No admin 1 features found for ISO='" ++ iso_code ++ "'"])
    | Option.some [] =>
      (Option.none, ["No admin 1 features found for ISO='" ++ iso_code ++ "'"])
    | Option.some (f :: fs) =>
      match buildRows (f :: fs) with
      | Except.error e => (Option.none, ["Error processing data: " ++ e])
      | Except.ok rows =>
        let df := frameOfRows rows
        (Option.some df,
          ["Found " ++ toString df.rows.length ++ " admin 1 subdivisions for " ++ iso_code])

/-- `get_admin2_boundaries(iso_code)` (lines 144–211), given the
outcome of its GET to `admin2_url iso_code`; identical to the admin 1
fetch except for the layer and the wording of the diagnostics. -/
def get_admin2_boundaries (iso_code : String) (o : Outcome) :
    Option RowFrame × List String :=
  match o with
  | Outcome.timeout =>
    (Option.none, ["Request timed out for ISO='" ++ iso_code ++ "'"])
  | Outcome.requestError e => (Option.none, ["Request error: " ++ e])
  | Outcome.badJson e => (Option.none, ["Error processing data: " ++ e])
  | Outcome.ok res =>
    match res.features with
    | Option.none =>
      (Option.none, ["No admin 2 features found for ISO='" ++ iso_code ++ "'"])
    | Option.some [] =>
      (Option.none, ["No admin 2 features found for ISO='" ++ iso_code ++ "'"])
    | Option.some (f :: fs) =>
      match buildRows (f :: fs) with
      | Except.error e => (Option.none, ["Error processing data: " ++ e])
      | Except.ok rows =>
        let df := frameOfRows rows
        (Option.some df,
          ["Found " ++ toString df.rows.length ++ " admin 2 subdivisions for " ++ iso_code])

/-! ## Dictionary and index lemmas -/

theorem dictLookup_map_set (d : PyDict) (k : String) (v : PyVal)
    (h : d.any (fun kv => kv.1 == k) = true) :
    dictLookup (d.map (fun kv => if kv.1 == k then (k, v) else kv)) k = v := by
  induction d with
  | nil => simp at h
  | cons a t ih =>
    by_cases ha : a.1 == k
    · simp [dictLookup, List.find?, ha]
    · have ht : t.any (fun kv => kv.1 == k) = true := by
        simp only [List.any_cons, ha, Bool.false_or] at h
        exact h
      have := ih ht
      simpa [dictLookup, List.find?, ha] using this

theorem dictLookup_append_new (d : PyDict) (k : String) (v : PyVal)
    (h : d.any (fun kv => kv.1 == k) = false) :
    dictLookup (d ++ [(k, v)]) k = v := by
  induction d with
  | nil => simp [dictLookup, List.find?]
  | cons a t ih =>
    simp only [List.any_cons, Bool.or_eq_false_iff] at h
    have := ih h.2
    simpa [dictLookup, List.find?, h.1] using this

/-- After `d[k] = v`, looking up `k` yields `v`. -/
theorem dictLookup_dictSet (d : PyDict) (k : String) (v : PyVal) :
    dictLookup (dictSet d k v) k = v := by
  unfold dictSet
  by_cases h : d.any (fun kv => kv.1 == k)
  · rw [if_pos h]
    exact dictLookup_map_set d k v h
  · rw [if_neg h]
    exact dictLookup_append_new d k v (Bool.of_not_eq_true h)

/-- In a dict with pairwise-distinct keys, lookup returns the stored
value. -/
theorem dictLookup_eq_of_mem (d : PyDict) (k : String) (v : PyVal)
    (hnd : (d.map Prod.fst).Nodup) (hmem : (k, v) ∈ d) : dictLookup d k = v := by
  induction d with
  | nil => cases hmem
  | cons a t ih =>
    rcases List.mem_cons.mp hmem with heq | hmem'
    · subst heq
      simp [dictLookup, List.find?]
    · have hk : k ∈ t.map Prod.fst := List.mem_map.mpr ⟨(k, v), hmem', rfl⟩
      have hne : ¬(a.1 == k) := by
        intro hbeq
        have : a.1 = k := eq_of_beq (by exact_mod_cast hbeq)
        subst this
        exact (List.nodup_cons.mp (by simpa using hnd)).1 hk
      have := ih (List.nodup_cons.mp (by simpa using hnd)).2 hmem'
      simpa [dictLookup, List.find?, hne] using this

theorem mem_insertSorted (a x : String) (l : List String) :
    x ∈ insertSorted a l ↔ x = a ∨ x ∈ l := by
  induction l with
  | nil => simp [insertSorted]
  | cons b t ih =>
    by_cases hb : strLe a b
    · simp [insertSorted, hb]
    · simp only [insertSorted, if_neg hb, List.mem_cons, ih]
      tauto

theorem mem_sortStrings (x : String) (l : List String) :
    x ∈ sortStrings l ↔ x ∈ l := by
  induction l with
  | nil => simp [sortStrings]
  | cons a t ih => simp [sortStrings, mem_insertSorted, ih]

theorem mem_dedupStr (x : String) (l : List String) :
    x ∈ dedupStr l ↔ x ∈ l := by
  induction l with
  | nil => simp [dedupStr]
  | cons a t ih =>
    by_cases ha : a ∈ t
    · rw [dedupStr, if_pos ha]
      simp only [List.mem_cons, ih]
      constructor
      · exact Or.inr
      · rintro (rfl | hx)
        · exact ha
        · exact hx
    · rw [dedupStr, if_neg ha]
      simp [List.mem_cons, ih]

/-- Membership in the pandas index union of two column key lists. -/
theorem mem_unionSorted_pair (x : String) (l m : List String) :
    x ∈ unionSorted [l, m] ↔ x ∈ l ∨ x ∈ m := by
  simp only [unionSorted]
  by_cases h : [m].all (fun n => n == l)
  · rw [if_pos h]
    have : m = l := by
      have h2 := List.all_eq_true.mp h m (by simp)
      exact eq_of_beq h2
    subst this
    tauto
  · rw [if_neg h]
    simp [mem_sortStrings, mem_dedupStr]

/-! ## Admin-loop lemmas -/

/-- The feature's geometry dict is present and carries the `rings` key
(the condition line 116 tests, given that line's `feature['geometry']`
access succeeded). -/
def hasRingsKey (f : Feature) : Bool :=
  match f.geometry with
  | Option.some g => g.rings.isSome
  | Option.none => false

/-- When every feature carries a `geometry` dict, the row loop
succeeds, produces one row per feature, and each row's `geometry`
entry is non-`None` exactly when that feature's geometry dict carries
the `rings` key. -/
theorem buildRows_ok (fs : List Feature)
    (h : ∀ f ∈ fs, f.geometry ≠ Option.none) :
    ∃ rows, buildRows fs = Except.ok rows ∧ rows.length = fs.length ∧
      List.Forall₂ (fun f row =>
        dictLookup row "geometry" ≠ PyVal.none ↔ hasRingsKey f = true) fs rows := by
  induction fs with
  | nil => exact ⟨[], rfl, rfl, List.Forall₂.nil⟩
  | cons f t ih =>
    obtain ⟨rows, hrows, hlen, hall⟩ := ih (fun g hg => h g (List.mem_cons_of_mem f hg))
    have hf : f.geometry ≠ Option.none := h f (List.mem_cons_self f t)
    match hgeo : f.geometry with
    | Option.none => exact absurd hgeo hf
    | Option.some g =>
      match hrs : g.rings with
      | Option.some rs =>
        refine ⟨dictSet f.attributes "geometry" (PyVal.geomVal (assembleRings rs)) :: rows,
          ?_, by simpa using hlen, ?_⟩
        · simp [buildRows, adminGeom, hgeo, hrs, hrows]
        · refine List.Forall₂.cons ?_ hall
          rw [dictLookup_dictSet]
          simp [hasRingsKey, hgeo, hrs]
      | Option.none =>
        refine ⟨dictSet f.attributes "geometry" PyVal.none :: rows,
          ?_, by simpa using hlen, ?_⟩
        · simp [buildRows, adminGeom, hgeo, hrs, hrows]
        · refine List.Forall₂.cons ?_ hall
          rw [dictLookup_dictSet]
          simp [hasRingsKey, hgeo, hrs]

/-! ## Concrete fixtures -/

/-- A feature like the spec's end-to-end fixture: Haiti attributes and
one square ring. -/
def featHTI : Feature :=
  ⟨[("ISO_A3", PyVal.str "HTI"), ("NAME_EN", PyVal.str "Haiti")],
    Option.some ⟨Option.some [outerSq]⟩⟩

/-- A feature whose geometry dict carries the `rings` key with an
empty list of rings. -/
def emptyRingsFeature : Feature :=
  ⟨[("ISO_A3", PyVal.str "HTI")], Option.some ⟨Option.some []⟩⟩

/-- A feature whose geometry dict lacks the `rings` key. -/
def noRingsFeature : Feature :=
  ⟨[("NAM_1", PyVal.str "Ouest")], Option.some ⟨Option.none⟩⟩

/-! ## Claims -/

/-- C1 (amended): for a feature whose rings are one outer boundary
ring and one ring fully enclosed inside it, the geometry produced by
the ring-assembly step of `get_boundaries` (one `Polygon` per ring,
then `unary_union`) is exactly the outer ring's region, so its area
EQUALS — and in particular is not strictly less than — the area
enclosed by the outer ring alone: the union absorbs the enclosed ring
instead of subtracting it as a hole. -/
theorem C1_union_absorbs_enclosed_hole (outer hole : ERing)
    (hsub : ringRegion hole ⊆ ringRegion outer) :
    assembleRings [outer, hole] = ringRegion outer ∧
    geomArea (assembleRings [outer, hole]) = geomArea (ringRegion outer) ∧
    ¬ geomArea (assembleRings [outer, hole]) < geomArea (ringRegion outer) := by
  have h := assembleRings_absorb outer hole hsub
  exact ⟨h, by rw [h], by rw [h]; exact lt_irrefl _⟩

/-- C1 counterexample: the square hole ring `holeSq` is fully enclosed
in the outer ring `outerSq`, yet the assembled geometry's area is NOT
strictly less than the outer ring's area (the claim's strict
inequality fails at this input). -/
theorem C1_counterexample :
    ringRegion holeSq ⊆ ringRegion outerSq ∧
    ¬ geomArea (assembleRings [outerSq, holeSq]) < geomArea (ringRegion outerSq) := by
  refine ⟨holeSq_subset_outerSq, ?_⟩
  rw [assembleRings_absorb outerSq holeSq holeSq_subset_outerSq]
  exact lt_irrefl _

/-- C1 witness: the amended theorem applied to the concrete square
rings. -/
theorem C1_witness :
    ringRegion holeSq ⊆ ringRegion outerSq ∧
    (assembleRings [outerSq, holeSq] = ringRegion outerSq ∧
      geomArea (assembleRings [outerSq, holeSq]) = geomArea (ringRegion outerSq) ∧
      ¬ geomArea (assembleRings [outerSq, holeSq]) < geomArea (ringRegion outerSq)) :=
  ⟨holeSq_subset_outerSq,
    C1_union_absorbs_enclosed_hole outerSq holeSq holeSq_subset_outerSq⟩

/-- C5: for a response with two or more features, `get_boundaries`
uses only the first feature — the returned table and printed output are
unchanged under any replacement of the remaining features. -/
theorem C5_first_feature_only (attr val : String) (f : Feature)
    (rest1 rest2 : List Feature) :
    get_boundaries attr val (Outcome.ok ⟨Option.some (f :: rest1)⟩) =
      get_boundaries attr val (Outcome.ok ⟨Option.some (f :: rest2)⟩) := rfl

/-- C6: a query matching zero features makes `get_boundaries` return
`None` (no exception) with a single diagnostic that contains both the
attribute name and the value, before any attribute or geometry
processing. -/
theorem C6_zero_features_diag (attr val : String) :
    get_boundaries attr val (Outcome.ok ⟨Option.some []⟩) =
      (Option.none, ["No features found for " ++ attr ++ "='" ++ val ++ "'"]) ∧
    ∃ pre mid post : String,
      "No features found for " ++ attr ++ "='" ++ val ++ "'" =
        pre ++ attr ++ mid ++ val ++ post :=
  ⟨rfl, "No features found for ", "='", "'", rfl⟩

/-- C8: the three operations are deterministic in their parameters and
the remote response: identical parameters and identical outcomes give
structurally identical results (no state is kept between calls). -/
theorem C8_deterministic (attr val iso : String) (o1 o2 : Outcome) (h : o1 = o2) :
    get_boundaries attr val o1 = get_boundaries attr val o2 ∧
    get_admin1_boundaries iso o1 = get_admin1_boundaries iso o2 ∧
    get_admin2_boundaries iso o1 = get_admin2_boundaries iso o2 := by
  subst h
  exact ⟨rfl, rfl, rfl⟩

/-- C8 witness: determinism at a concrete input. -/
theorem C8_witness :
    Outcome.ok ⟨Option.some [featHTI]⟩ = Outcome.ok ⟨Option.some [featHTI]⟩ ∧
    (get_boundaries "ISO_A3" "HTI" (Outcome.ok ⟨Option.some [featHTI]⟩) =
        get_boundaries "ISO_A3" "HTI" (Outcome.ok ⟨Option.some [featHTI]⟩) ∧
      get_admin1_boundaries "HTI" (Outcome.ok ⟨Option.some [featHTI]⟩) =
        get_admin1_boundaries "HTI" (Outcome.ok ⟨Option.some [featHTI]⟩) ∧
      get_admin2_boundaries "HTI" (Outcome.ok ⟨Option.some [featHTI]⟩) =
        get_admin2_boundaries "HTI" (Outcome.ok ⟨Option.some [featHTI]⟩)) :=
  ⟨rfl, C8_deterministic "ISO_A3" "HTI" "HTI" _ _ rfl⟩

/-- C9: in `get_boundaries`, a first feature without a `geometry` key,
or whose geometry dict lacks the `rings` key, makes the whole call
return `None` through the catch-all processing-error path (`KeyError`
printed as the quoted key), even though the attributes were parsed. -/
theorem C9_missing_geometry_returns_none (attr val : String) (attrs : PyDict)
    (rest : List Feature) :
    get_boundaries attr val
        (Outcome.ok ⟨Option.some (⟨attrs, Option.none⟩ :: rest)⟩) =
      (Option.none, ["Error processing data: " ++ "'geometry'"]) ∧
    get_boundaries attr val
        (Outcome.ok ⟨Option.some (⟨attrs, Option.some ⟨Option.none⟩⟩ :: rest)⟩) =
      (Option.none, ["Error processing data: " ++ "'rings'"]) :=
  ⟨rfl, rfl⟩

/-- C10: in all three operations a parsed body without a `features`
key is handled exactly like an empty feature set: the "no features
found" diagnostic is printed and `None` returned, not the
processing-error path. -/
theorem C10_missing_features_key (attr val iso : String) :
    (get_boundaries attr val (Outcome.ok ⟨Option.none⟩) =
        get_boundaries attr val (Outcome.ok ⟨Option.some []⟩) ∧
      get_boundaries attr val (Outcome.ok ⟨Option.none⟩) =
        (Option.none, ["No features found for " ++ attr ++ "='" ++ val ++ "'"])) ∧
    (get_admin1_boundaries iso (Outcome.ok ⟨Option.none⟩) =
        get_admin1_boundaries iso (Outcome.ok ⟨Option.some []⟩) ∧
      get_admin1_boundaries iso (Outcome.ok ⟨Option.none⟩) =
        (Option.none, ["No admin 1 features found for ISO='" ++ iso ++ "'"])) ∧
    (get_admin2_boundaries iso (Outcome.ok ⟨Option.none⟩) =
        get_admin2_boundaries iso (Outcome.ok ⟨Option.some []⟩) ∧
      get_admin2_boundaries iso (Outcome.ok ⟨Option.none⟩) =
        (Option.none, ["No admin 2 features found for ISO='" ++ iso ++ "'"])) :=
  ⟨⟨rfl, rfl⟩, ⟨rfl, rfl⟩, ⟨rfl, rfl⟩⟩

/-- C3: whatever the remote interaction produced (timeout, transport
or HTTP error, malformed JSON, or any parsed body, including ones with
unexpected geometry shape), no operation raises: whenever an operation
returns `None` it has printed exactly one diagnostic line, and those
are the only two observable effects. -/
theorem C3_no_exception_failure_prints (attr val iso : String) (o : Outcome) :
    ((get_boundaries attr val o).1 = Option.none →
      (get_boundaries attr val o).2.length = 1) ∧
    ((get_admin1_boundaries iso o).1 = Option.none →
      (get_admin1_boundaries iso o).2.length = 1) ∧
    ((get_admin2_boundaries iso o).1 = Option.none →
      (get_admin2_boundaries iso o).2.length = 1) := by
  refine ⟨?_, ?_, ?_⟩
  · cases o with
    | timeout => intro _; rfl
    | requestError e => intro _; rfl
    | badJson e => intro _; rfl
    | ok res =>
      obtain ⟨fso⟩ := res
      cases fso with
      | none => intro _; rfl
      | some fs =>
        cases fs with
        | nil => intro _; rfl
        | cons f t =>
          cases hg : getRings f with
          | error e => intro _; simp [get_boundaries, hg]
          | ok rs => intro h; simp [get_boundaries, hg] at h
  · cases o with
    | timeout => intro _; rfl
    | requestError e => intro _; rfl
    | badJson e => intro _; rfl
    | ok res =>
      obtain ⟨fso⟩ := res
      cases fso with
      | none => intro _; rfl
      | some fs =>
        cases fs with
        | nil => intro _; rfl
        | cons f t =>
          cases hb : buildRows (f :: t) with
          | error e => intro _; simp [get_admin1_boundaries, hb]
          | ok rows => intro h; simp [get_admin1_boundaries, hb] at h
  · cases o with
    | timeout => intro _; rfl
    | requestError e => intro _; rfl
    | badJson e => intro _; rfl
    | ok res =>
      obtain ⟨fso⟩ := res
      cases fso with
      | none => intro _; rfl
      | some fs =>
        cases fs with
        | nil => intro _; rfl
        | cons f t =>
          cases hb : buildRows (f :: t) with
          | error e => intro _; simp [get_admin2_boundaries, hb]
          | ok rows => intro h; simp [get_admin2_boundaries, hb] at h

/-- C3 witness: the failure contract at a concrete failing input. -/
theorem C3_witness :
    (get_boundaries "ISO_A3" "HTI" Outcome.timeout).2.length = 1 ∧
    (get_admin1_boundaries "HTI" Outcome.timeout).2.length = 1 ∧
    (get_admin2_boundaries "HTI" Outcome.timeout).2.length = 1 :=
  ⟨(C3_no_exception_failure_prints "ISO_A3" "HTI" "HTI" Outcome.timeout).1 rfl,
    (C3_no_exception_failure_prints "ISO_A3" "HTI" "HTI" Outcome.timeout).2.1 rfl,
    (C3_no_exception_failure_prints "ISO_A3" "HTI" "HTI" Outcome.timeout).2.2 rfl⟩

set_option maxRecDepth 4096 in
/-- C7: each request URL is the fixed layer endpoint followed by
exactly the querystring `where=<attr>='<val>'` (`ISO_A3` for the admin
fetches), `f=pjson`, `returnGeometry=true`, `outFields=*`, `outSR=4326`,
with the caller's value inserted by naive interpolation; no escaping is
applied, so values containing a quote corrupt the predicate — two
different (attribute, value) pairs can produce the same URL. -/
theorem C7_request_url_shape :
    (∀ attr val : String,
      country_url attr val =
        ("https://services.arcgis.com/iQ1dY19aHwbSDYIF/ArcGIS/rest/services/" ++
            "World_Bank_Official_Boundaries_World_Country_Polygons_(Very_High_Definition)/FeatureServer/0/query?") ++
          ("where=" ++ attr ++ "='" ++ val ++
            "'&f=pjson&returnGeometry=true&outFields=*&outSR=4326")) ∧
    (∀ iso : String,
      admin1_url iso =
        ("https://services.arcgis.com/iQ1dY19aHwbSDYIF/ArcGIS/rest/services/" ++
            "World_Bank_Global_Administrative_Divisions/FeatureServer/2/query?") ++
          ("where=ISO_A3='" ++ iso ++
            "'&f=pjson&returnGeometry=true&outFields=*&outSR=4326")) ∧
    (∀ iso : String,
      admin2_url iso =
        ("https://services.arcgis.com/iQ1dY19aHwbSDYIF/ArcGIS/rest/services/" ++
            "World_Bank_Global_Administrative_Divisions/FeatureServer/3/query?") ++
          ("where=ISO_A3='" ++ iso ++
            "'&f=pjson&returnGeometry=true&outFields=*&outSR=4326")) ∧
    (country_url "NAME_EN='Haiti" "x" = country_url "NAME_EN" "Haiti='x" ∧
      ("NAME_EN='Haiti", "x") ≠ ("NAME_EN", "Haiti='x")) := by
  refine ⟨?_, ?_, ?_, ?_, ?_⟩
  · intro attr val
    simp [country_url, String.join, String.append_assoc]
  · intro iso
    simp [admin1_url, String.join, String.append_assoc]
  · intro iso
    simp [admin2_url, String.join, String.append_assoc]
  · decide
  · decide

/-- C2 (amended): on success `get_boundaries` returns the transposed
frame with its last row (the `geometry` row of the transpose) dropped,
so the table has the single row label `attributes`, every original
attribute appears as a labeled COLUMN (attribute name mapped to its
value in that row) rather than as a row, and a `rings` entry in the
`attributes` row holds the unioned polygon geometry (requires the
attribute keys to be distinct and none of them to be the literal name
`rings`, which the geometry entry would overwrite). -/
theorem C2_table_shape_amended (attr val : String) (attrs : PyDict) (rs : List ERing)
    (rest : List Feature) (hnd : (attrs.map Prod.fst).Nodup)
    (hr : "rings" ∉ attrs.map Prod.fst) :
    ∃ tbl,
      get_boundaries attr val
          (Outcome.ok ⟨Option.some (⟨attrs, Option.some ⟨Option.some rs⟩⟩ :: rest)⟩) =
        (Option.some tbl, []) ∧
      tbl.index = ["attributes"] ∧
      (∀ kv ∈ attrs, kv.1 ∈ tbl.cols ∧ tbl.cell "attributes" kv.1 = kv.2) ∧
      "rings" ∈ tbl.cols ∧
      tbl.cell "attributes" "rings" = PyVal.geomVal (assembleRings rs) := by
  have hru : "rings" ∈ unionSorted [attrs.map Prod.fst, ["rings"]] :=
    (mem_unionSorted_pair _ _ _).mpr (Or.inr (List.mem_singleton.mpr rfl))
  refine ⟨locSet (dropLastRow (transposeF (fromDict (featureDict
      ⟨attrs, Option.some ⟨Option.some rs⟩⟩))))
      "attributes" "rings" (PyVal.geomVal (assembleRings rs)), rfl, ?_, ?_, ?_, ?_⟩
  · simp [locSet, dropLastRow, transposeF, fromDict, featureDict]
  · intro kv hkv
    constructor
    · have hm : kv.1 ∈ unionSorted [attrs.map Prod.fst, ["rings"]] :=
        (mem_unionSorted_pair _ _ _).mpr (Or.inl (List.mem_map_of_mem Prod.fst hkv))
      simpa [locSet, dropLastRow, transposeF, fromDict, featureDict, hru] using hm
    · have hk1 : kv.1 ≠ "rings" := fun h => hr (h ▸ List.mem_map_of_mem Prod.fst hkv)
      show (if ("attributes" = "attributes" ∧ kv.1 = "rings")
          then PyVal.geomVal (assembleRings rs)
          else dictLookup attrs kv.1) = kv.2
      rw [if_neg (fun hand => hk1 hand.2)]
      exact dictLookup_eq_of_mem attrs kv.1 kv.2 hnd hkv
  · simp [locSet, dropLastRow, transposeF, fromDict, featureDict, hru]
  · show (if ("attributes" = "attributes" ∧ "rings" = "rings")
        then PyVal.geomVal (assembleRings rs)
        else dictLookup [("rings", PyVal.ringsVal rs)] "attributes") =
      PyVal.geomVal (assembleRings rs)
    rw [if_pos ⟨rfl, rfl⟩]

/-- C2 counterexample: at the spec's own Haiti fixture, the returned
table's only row label is `attributes`; `ISO_A3` and `NAME_EN` are NOT
row labels (the claim says every attribute appears as a labeled row) —
they are column labels. -/
theorem C2_counterexample :
    ∃ tbl,
      (get_boundaries "ISO_A3" "HTI" (Outcome.ok ⟨Option.some [featHTI]⟩)).1 =
        Option.some tbl ∧
      tbl.index = ["attributes"] ∧
      "ISO_A3" ∉ tbl.index ∧ "NAME_EN" ∉ tbl.index ∧
      "ISO_A3" ∈ tbl.cols ∧ "NAME_EN" ∈ tbl.cols := by
  refine ⟨_, rfl, rfl, ?_, ?_, ?_, ?_⟩ <;> decide

/-- C2 witness: the amended theorem applied to the Haiti fixture. -/
theorem C2_witness :
    ((([("ISO_A3", PyVal.str "HTI"), ("NAME_EN", PyVal.str "Haiti")] : PyDict).map
        Prod.fst).Nodup ∧
      "rings" ∉ ([("ISO_A3", PyVal.str "HTI"), ("NAME_EN", PyVal.str "Haiti")] : PyDict).map
        Prod.fst) ∧
    ∃ tbl,
      get_boundaries "ISO_A3" "HTI"
          (Outcome.ok ⟨Option.some
            (⟨[("ISO_A3", PyVal.str "HTI"), ("NAME_EN", PyVal.str "Haiti")],
              Option.some ⟨Option.some [outerSq]⟩⟩ :: [])⟩) =
        (Option.some tbl, []) ∧
      tbl.index = ["attributes"] ∧
      (∀ kv ∈ ([("ISO_A3", PyVal.str "HTI"), ("NAME_EN", PyVal.str "Haiti")] : PyDict),
        kv.1 ∈ tbl.cols ∧ tbl.cell "attributes" kv.1 = kv.2) ∧
      "rings" ∈ tbl.cols ∧
      tbl.cell "attributes" "rings" = PyVal.geomVal (assembleRings [outerSq]) :=
  ⟨⟨by decide, by decide⟩,
    C2_table_shape_amended "ISO_A3" "HTI"
      [("ISO_A3", PyVal.str "HTI"), ("NAME_EN", PyVal.str "Haiti")] [outerSq] []
      (by decide) (by decide)⟩

/-- C4 (amended): for a response with a non-empty features array in
which every feature carries a `geometry` dict, the admin fetches return
a table with exactly one row per feature, and a row's `geometry` entry
is non-null exactly when the feature's geometry dict carries the
`rings` key — NOT "at least one ring": a present-but-empty rings list
still yields a non-null (empty) geometry object. A feature without a
`geometry` dict instead aborts the whole call through the
processing-error path. -/
theorem C4_admin_rows_amended (iso : String) (fs : List Feature) (hne : fs ≠ [])
    (hg : ∀ f ∈ fs, f.geometry ≠ Option.none) :
    (∃ df logs,
      get_admin1_boundaries iso (Outcome.ok ⟨Option.some fs⟩) = (Option.some df, logs) ∧
      df.rows.length = fs.length ∧
      List.Forall₂ (fun f row =>
        dictLookup row "geometry" ≠ PyVal.none ↔ hasRingsKey f = true) fs df.rows) ∧
    (∃ df logs,
      get_admin2_boundaries iso (Outcome.ok ⟨Option.some fs⟩) = (Option.some df, logs) ∧
      df.rows.length = fs.length ∧
      List.Forall₂ (fun f row =>
        dictLookup row "geometry" ≠ PyVal.none ↔ hasRingsKey f = true) fs df.rows) := by
  obtain ⟨rows, hrows, hlen, hall⟩ := buildRows_ok fs hg
  cases fs with
  | nil => exact absurd rfl hne
  | cons f t =>
    constructor
    · refine ⟨frameOfRows rows,
        ["Found " ++ toString rows.length ++ " admin 1 subdivisions for " ++ iso],
        ?_, ?_, ?_⟩
      · simp [get_admin1_boundaries, hrows, frameOfRows]
      · simpa [frameOfRows] using hlen
      · simpa [frameOfRows] using hall
    · refine ⟨frameOfRows rows,
        ["Found " ++ toString rows.length ++ " admin 2 subdivisions for " ++ iso],
        ?_, ?_, ?_⟩
      · simp [get_admin2_boundaries, hrows, frameOfRows]
      · simpa [frameOfRows] using hlen
      · simpa [frameOfRows] using hall

/-- C4 counterexample: a feature whose geometry dict carries the
`rings` key with an EMPTY list of rings — so the feature carries zero
rings — still gets a populated (non-null) geometry cell, namely the
empty union `unary_union([])`; the claim's "populated iff at least one
ring" fails at this input. -/
theorem C4_counterexample :
    (∃ df,
      (get_admin1_boundaries "HTI"
          (Outcome.ok ⟨Option.some [emptyRingsFeature]⟩)).1 = Option.some df ∧
      df.rows.length = 1 ∧
      dictLookup df.rows.headI "geometry" = PyVal.geomVal (assembleRings []) ∧
      dictLookup df.rows.headI "geometry" ≠ PyVal.none) ∧
    emptyRingsFeature.geometry = Option.some ⟨Option.some []⟩ := by
  refine ⟨⟨frameOfRows
      [[("ISO_A3", PyVal.str "HTI"), ("geometry", PyVal.geomVal (assembleRings []))]],
      rfl, rfl, rfl, ?_⟩, rfl⟩
  intro hcontra
  have h3 : dictLookup
      (frameOfRows
        [[("ISO_A3", PyVal.str "HTI"), ("geometry", PyVal.geomVal (assembleRings []))]]).rows.headI
      "geometry" = PyVal.geomVal (assembleRings []) := rfl
  rw [h3] at hcontra
  exact PyVal.noConfusion hcontra

/-- C4 witness: the amended theorem at a concrete two-feature
response (one feature with a ring, one whose geometry dict lacks the
`rings` key). -/
theorem C4_witness :
    (([featHTI, noRingsFeature] : List Feature) ≠ [] ∧
      ∀ f ∈ ([featHTI, noRingsFeature] : List Feature), f.geometry ≠ Option.none) ∧
    ((∃ df logs,
      get_admin1_boundaries "HTI" (Outcome.ok ⟨Option.some [featHTI, noRingsFeature]⟩) =
        (Option.some df, logs) ∧
      df.rows.length = ([featHTI, noRingsFeature] : List Feature).length ∧
      List.Forall₂ (fun f row =>
        dictLookup row "geometry" ≠ PyVal.none ↔ hasRingsKey f = true)
        [featHTI, noRingsFeature] df.rows) ∧
    (∃ df logs,
      get_admin2_boundaries "HTI" (Outcome.ok ⟨Option.some [featHTI, noRingsFeature]⟩) =
        (Option.some df, logs) ∧
      df.rows.length = ([featHTI, noRingsFeature] : List Feature).length ∧
      List.Forall₂ (fun f row =>
        dictLookup row "geometry" ≠ PyVal.none ↔ hasRingsKey f = true)
        [featHTI, noRingsFeature] df.rows)) := by
  have hne : ([featHTI, noRingsFeature] : List Feature) ≠ [] := by simp
  have hg : ∀ f ∈ ([featHTI, noRingsFeature] : List Feature),
      f.geometry ≠ Option.none := by
    intro f hf
    rcases List.mem_cons.mp hf with rfl | hf2
    · exact fun h => Option.noConfusion h
    · rcases List.mem_cons.mp hf2 with rfl | h0
      · exact fun h => Option.noConfusion h
      · cases h0
  exact ⟨⟨hne, hg⟩, C4_admin_rows_amended "HTI" [featHTI, noRingsFeature] hne hg⟩
